import Mathlib

/-!
Verification of the PSD-Lab procedural remapping pipeline.

The development embeds, in Lean, the geometry and tree-codec core of the
repository: the serializable layer model, the Remapper node's transformation
math, the template-metadata extractor, the boundary validator, the name
resolver, and the deterministic path-id codec (`getCleanLayerTree` /
`findLayerByPath`).  JavaScript numbers are modelled as rationals; optional
(possibly `undefined`) fields are modelled with `Option`.
-/

/-- A rectangle `{x, y, w, h}` in document pixel units. -/
structure Rect where
  x : ℚ
  y : ℚ
  w : ℚ
  h : ℚ
deriving Repr, DecidableEq

/-- The per-layer transform record `{scaleX, scaleY, offsetX, offsetY}`. -/
structure TransformRecord where
  scaleX : ℚ
  scaleY : ℚ
  offsetX : ℚ
  offsetY : ℚ
deriving Repr, DecidableEq

/-- The `type` discriminator of a `SerializableLayer`: `'layer' | 'group'`. -/
inductive LayerKind where
  | layer : LayerKind
  | group : LayerKind
deriving Repr, DecidableEq

/-- The lightweight serializable layer tree (`SerializableLayer` in
`types.ts`): `{id, name, type, isVisible, opacity, coords, children?}`.
`children` is `Option`al to mirror the optional TS field. -/
inductive SLayer where
  | mk (id : String) (name : String) (kind : LayerKind) (isVisible : Bool)
       (opacity : ℚ) (coords : Rect) (children : Option (List SLayer))

/-- Field accessor for `SLayer.id`. -/
def SLayer.id : SLayer → String
  | .mk i _ _ _ _ _ _ => i

/-- Field accessor for `SLayer.name`. -/
def SLayer.name : SLayer → String
  | .mk _ n _ _ _ _ _ => n

/-- Field accessor for `SLayer.kind`. -/
def SLayer.kind : SLayer → LayerKind
  | .mk _ _ k _ _ _ _ => k

/-- Field accessor for `SLayer.isVisible`. -/
def SLayer.isVisible : SLayer → Bool
  | .mk _ _ _ v _ _ _ => v

/-- Field accessor for `SLayer.opacity`. -/
def SLayer.opacity : SLayer → ℚ
  | .mk _ _ _ _ o _ _ => o

/-- Field accessor for `SLayer.coords`. -/
def SLayer.coords : SLayer → Rect
  | .mk _ _ _ _ _ c _ => c

/-- Field accessor for `SLayer.children`. -/
def SLayer.children : SLayer → Option (List SLayer)
  | .mk _ _ _ _ _ _ cs => cs

/-- A transformed layer (`TransformedLayer` in `types.ts`): a serializable
layer whose `coords` hold the new target-space rectangle, plus the
`transform` record. -/
inductive TLayer where
  | mk (id : String) (name : String) (kind : LayerKind) (isVisible : Bool)
       (opacity : ℚ) (coords : Rect) (transform : TransformRecord)
       (children : Option (List TLayer))

/-- Field accessor for `TLayer.id`. -/
def TLayer.id : TLayer → String
  | .mk i _ _ _ _ _ _ _ => i

/-- Field accessor for `TLayer.name`. -/
def TLayer.name : TLayer → String
  | .mk _ n _ _ _ _ _ _ => n

/-- Field accessor for `TLayer.coords`. -/
def TLayer.coords : TLayer → Rect
  | .mk _ _ _ _ _ c _ _ => c

/-- Field accessor for `TLayer.transform`. -/
def TLayer.transform : TLayer → TransformRecord
  | .mk _ _ _ _ _ _ t _ => t

/-- Field accessor for `TLayer.children`. -/
def TLayer.children : TLayer → Option (List TLayer)
  | .mk _ _ _ _ _ _ _ cs => cs

/-- The uniform fit scale computed by the Remapper:
`Math.min(targetRect.w / sourceRect.w, targetRect.h / sourceRect.h)`. -/
def remapScale (sourceRect targetRect : Rect) : ℚ :=
  min (targetRect.w / sourceRect.w) (targetRect.h / sourceRect.h)

mutual

/-- One step of the Remapper's `transformLayers` mapping function: computes
`relX = (layer.coords.x - sourceRect.x) / sourceRect.w`,
`newX = targetRect.x + relX * targetRect.w` (and analogously for `y`),
`newW = layer.coords.w * scale`, `newH = layer.coords.h * scale`, and
recurses into `children` when present. -/
def transformOne (sourceRect targetRect : Rect) (scale : ℚ) : SLayer → TLayer
  | .mk i n k v o c cs =>
    let relX := (c.x - sourceRect.x) / sourceRect.w
    let relY := (c.y - sourceRect.y) / sourceRect.h
    let newX := targetRect.x + relX * targetRect.w
    let newY := targetRect.y + relY * targetRect.h
    let newW := c.w * scale
    let newH := c.h * scale
    .mk i n k v o ⟨newX, newY, newW, newH⟩ ⟨scale, scale, newX, newY⟩
      (transformChildren sourceRect targetRect scale cs)

/-- `layer.children ? transformLayers(layer.children) : undefined`. -/
def transformChildren (sourceRect targetRect : Rect) (scale : ℚ) :
    Option (List SLayer) → Option (List TLayer)
  | none => none
  | some cs => some (transformLayers sourceRect targetRect scale cs)

/-- The Remapper's recursive `transformLayers` over a list of layers. -/
def transformLayers (sourceRect targetRect : Rect) (scale : ℚ) :
    List SLayer → List TLayer
  | [] => []
  | l :: ls =>
    transformOne sourceRect targetRect scale l ::
      transformLayers sourceRect targetRect scale ls

end

/-- The Remapper's output unit (`TransformedPayload` in `types.ts`),
restricted to the fields the transformation math produces. -/
structure TransformedPayload where
  status : String
  sourceContainer : String
  targetContainer : String
  layers : List TLayer
  scaleFactor : ℚ
  metricsSourceW : ℚ
  metricsSourceH : ℚ
  metricsTargetW : ℚ
  metricsTargetH : ℚ

/-- The Remapper's transformation step (`transformationPayload` /
`transformationResult`): given the resolved source container (name, bounds,
layers) and target container (name, bounds), computes the uniform fit scale
and the transformed subtree, and returns the `'success'` payload.  The code
performs no check on the source rectangle's area before the divisions. -/
def transformationPayload (sourceName : String) (sourceBounds : Rect)
    (sourceLayers : List SLayer) (targetName : String) (targetBounds : Rect) :
    TransformedPayload :=
  let sourceRect := sourceBounds
  let targetRect := targetBounds
  let ratioX := targetRect.w / sourceRect.w
  let ratioY := targetRect.h / sourceRect.h
  let scale := min ratioX ratioY
  { status := "success"
    sourceContainer := sourceName
    targetContainer := targetName
    layers := transformLayers sourceRect targetRect scale sourceLayers
    scaleFactor := scale
    metricsSourceW := sourceRect.w
    metricsSourceH := sourceRect.h
    metricsTargetW := targetRect.w
    metricsTargetH := targetRect.h }

mutual

/-- Preorder flattening of a serializable layer forest: each layer followed
by its descendants, then its later siblings.  Used to state per-layer
properties over a whole subtree at once. -/
def flattenS : List SLayer → List SLayer
  | [] => []
  | .mk i n k v o c cs :: ls =>
    .mk i n k v o c cs :: (flattenSOpt cs ++ flattenS ls)

/-- Preorder flattening of an optional child forest. -/
def flattenSOpt : Option (List SLayer) → List SLayer
  | none => []
  | some ls => flattenS ls

end

mutual

/-- Preorder flattening of a transformed layer forest. -/
def flattenT : List TLayer → List TLayer
  | [] => []
  | .mk i n k v o c t cs :: ls =>
    .mk i n k v o c t cs :: (flattenTOpt cs ++ flattenT ls)

/-- Preorder flattening of an optional transformed child forest. -/
def flattenTOpt : Option (List TLayer) → List TLayer
  | none => []
  | some ls => flattenT ls

end

/-- The per-layer input/output relation actually implemented by the
Remapper's `transformLayers`: positions are re-normalized into the target
rectangle's own dimensions (`newX = targetRect.x + relX * targetRect.w`),
while dimensions are scaled uniformly by `scale` on both axes. -/
def remapRel (sourceRect targetRect : Rect) (scale : ℚ) (s : SLayer) (t : TLayer) : Prop :=
  t.coords.x = targetRect.x + (s.coords.x - sourceRect.x) / sourceRect.w * targetRect.w ∧
  t.coords.y = targetRect.y + (s.coords.y - sourceRect.y) / sourceRect.h * targetRect.h ∧
  t.coords.w = s.coords.w * scale ∧
  t.coords.h = s.coords.h * scale ∧
  t.transform.scaleX = scale ∧
  t.transform.scaleY = scale

/-- The spec's centered anchor:
`anchorX = targetRect.x + (targetRect.w - sourceRect.w*scale)/2`. -/
def specAnchorX (sourceRect targetRect : Rect) (scale : ℚ) : ℚ :=
  targetRect.x + (targetRect.w - sourceRect.w * scale) / 2

/-- The spec's claimed projection of a layer's x-coordinate:
`newX = anchorX + relX * sourceRect.w * scale`. -/
def specProjectedX (sourceRect targetRect : Rect) (scale : ℚ) (layerX : ℚ) : ℚ :=
  specAnchorX sourceRect targetRect scale +
    (layerX - sourceRect.x) / sourceRect.w * sourceRect.w * scale

/-- An opaque document node (`ag-psd` `Layer`), restricted to the fields the
core reads. -/
inductive Layer where
  | mk (name : Option String) (top : Option ℚ) (left : Option ℚ)
       (bottom : Option ℚ) (rightEdge : Option ℚ) (hidden : Option Bool)
       (opacity : Option ℚ) (children : Option (List Layer))

/-- Field accessor for `Layer.name`. -/
def Layer.name : Layer → Option String
  | .mk n _ _ _ _ _ _ _ => n

/-- Field accessor for `Layer.top`. -/
def Layer.top : Layer → Option ℚ
  | .mk _ t _ _ _ _ _ _ => t

/-- Field accessor for `Layer.left`. -/
def Layer.left : Layer → Option ℚ
  | .mk _ _ l _ _ _ _ _ => l

/-- Field accessor for `Layer.bottom`. -/
def Layer.bottom : Layer → Option ℚ
  | .mk _ _ _ b _ _ _ _ => b

/-- Field accessor for the node's right edge (`Layer.right` in `ag-psd`). -/
def Layer.rightEdge : Layer → Option ℚ
  | .mk _ _ _ _ r _ _ _ => r

/-- Field accessor for `Layer.hidden`. -/
def Layer.hidden : Layer → Option Bool
  | .mk _ _ _ _ _ h _ _ => h

/-- Field accessor for `Layer.opacity`. -/
def Layer.opacity : Layer → Option ℚ
  | .mk _ _ _ _ _ _ o _ => o

/-- Field accessor for `Layer.children`. -/
def Layer.children : Layer → Option (List Layer)
  | .mk _ _ _ _ _ _ _ cs => cs

/-- A parsed document (`ag-psd` `Psd`): canvas dimensions and root children. -/
structure Psd where
  width : Option ℚ
  height : Option ℚ
  children : Option (List Layer)

/-- JS `||` on an optional string: `undefined` and `''` are falsy. -/
def jsOrStr (o : Option String) (d : String) : String :=
  match o with
  | some s => if s = "" then d else s
  | none => d

/-- JS `||` on an optional number used for canvas dimensions: `undefined`
and `0` are falsy (`psd.width || 1`). -/
def jsOrOne (o : Option ℚ) : ℚ :=
  match o with
  | some v => if v = 0 then 1 else v
  | none => 1

/-- JS string interpolation of a possibly-`undefined` value:
`` `${x}` `` renders `undefined` as the string `"undefined"`. -/
def jsInterp (o : Option String) : String :=
  match o with
  | some s => s
  | none => "undefined"

/-- Characters of a string with surrounding whitespace removed (JS
`String.prototype.trim`). -/
def trimChars (cs : List Char) : List Char :=
  ((cs.dropWhile Char.isWhitespace).reverse.dropWhile Char.isWhitespace).reverse

/-- JS `s.trim()`. -/
def jsTrim (s : String) : String :=
  ⟨trimChars s.data⟩

/-- JS `s.toLowerCase()` (ASCII case folding, the only case used by the
repository's names). -/
def jsToLower (s : String) : String :=
  ⟨s.data.map Char.toLower⟩

/-- JS `s.replace(/^!+/, '')`: remove a leading run of `'!'` markers. -/
def stripBangs (s : String) : String :=
  ⟨s.data.dropWhile (· = '!')⟩

/-- JS `s.replace(/^!!/, '')`: remove exactly one leading literal `"!!"`,
when present (the form used by `extractTemplateMetadata`). -/
def stripMarkerPair (s : String) : String :=
  match s.data with
  | '!' :: '!' :: rest => ⟨rest⟩
  | _ => s

/-- `CanvasSpec`: `{width, height}` in pixels. -/
structure CanvasSpec where
  width : ℚ
  height : ℚ

/-- `ContainerDefinition`: `{id, name, originalName, bounds, normalized}`. -/
structure ContainerDefinition where
  id : String
  name : String
  originalName : String
  bounds : Rect
  normalized : Rect

/-- `TemplateMetadata`: `{canvas, containers}`. -/
structure TemplateMetadata where
  canvas : CanvasSpec
  containers : List ContainerDefinition

/-- `ContainerContext`: `{containerName, bounds, canvasDimensions}`. -/
structure ContainerContext where
  containerName : String
  bounds : Rect
  canvasW : ℚ
  canvasH : ℚ

/-- `createContainerContext` (`psdService.ts`): finds the container whose
`name` strictly equals the requested string and packages its name, bounds
and the template's canvas dimensions; `null` when no container matches. -/
def createContainerContext (template : TemplateMetadata) (containerName : String) :
    Option ContainerContext :=
  match template.containers.find? (fun c => c.name == containerName) with
  | none => none
  | some container =>
    some ⟨container.name, container.bounds,
      template.canvas.width, template.canvas.height⟩

/-- `resolveLayer` from `usePsdResolver.ts`: strips the leading `'!'` run,
trims, lower-cases, and returns the first top-level design layer whose
trimmed lower-cased name matches; `null` for null tree, falsy requested
name, or no match. -/
def resolveLayer (templateName : String) (designTree : Option (List SLayer)) :
    Option SLayer :=
  match designTree with
  | none => none
  | some tree =>
    if templateName = "" then none
    else
      let normalizedTemplateName := jsTrim (stripBangs templateName)
      if normalizedTemplateName = "" then none
      else
        let targetNameLower := jsToLower normalizedTemplateName
        tree.find? fun layer => jsToLower (jsTrim layer.name) == targetNameLower

/-- The concrete design group used by the C8 witness. -/
def c8layer : SLayer := .mk "layer-0" "symbols" .group true 1 ⟨0, 0, 10, 10⟩ none

/-- The concrete template used by the C10 witness and examples: one container
whose cleaned name is `"SYMBOLS"`. -/
def c10template : TemplateMetadata :=
  ⟨⟨800, 600⟩, [⟨"container-0-SYMBOLS", "SYMBOLS", "!!SYMBOLS", ⟨1, 2, 3, 4⟩, ⟨0, 0, 0, 0⟩⟩]⟩

/-- The resolver's status codes.  `DATA_LOCKED` is assigned by the calling
node, never by `resolveLayer` itself. -/
inductive ResolverStatus where
  | RESOLVED : ResolverStatus
  | CASE_MISMATCH : ResolverStatus
  | EMPTY_GROUP : ResolverStatus
  | MISSING_DESIGN_GROUP : ResolverStatus
  | NO_NAME : ResolverStatus
  | DATA_LOCKED : ResolverStatus
deriving Repr, DecidableEq

/-- The structured resolution outcome: a status, a human-readable message,
and the resolved layer (nullable). -/
structure ResolutionResult where
  status : ResolverStatus
  message : String
  layer : Option SLayer

/-- Modelled from the spec: the structured `resolveLayer` of the diagnostic
`usePsdResolver` hook, whose implementation is missing from the provided
sources (only its caller `ContainerResolverNode` and spec §4.3 describe it).
Steps follow §4.3 literally: null/empty tree → `MISSING_DESIGN_GROUP`; name
empty after stripping markers and trimming → `NO_NAME`; first case-folded
match in array order; exact-case match → `RESOLVED`, case-folded-only match
→ `CASE_MISMATCH`; a match with empty/absent children → `EMPTY_GROUP`; no
match → `MISSING_DESIGN_GROUP`.  Every outcome carries a message and the
nullable layer. -/
def resolveLayerStructured (requestedName : String)
    (designTree : Option (List SLayer)) : ResolutionResult :=
  match designTree with
  | none => ⟨.MISSING_DESIGN_GROUP, "No design layer tree is connected", none⟩
  | some tree =>
    if tree.isEmpty then
      ⟨.MISSING_DESIGN_GROUP, "No design layer tree is connected", none⟩
    else
      let normalized := jsTrim (stripBangs requestedName)
      if normalized = "" then
        ⟨.NO_NAME, "No container name was requested", none⟩
      else
        let target := jsToLower normalized
        match tree.find? (fun l => jsToLower (jsTrim l.name) == target) with
        | none =>
          ⟨.MISSING_DESIGN_GROUP, "No matching design group was found", none⟩
        | some l =>
          if (match l.children with | none => true | some cs => cs.isEmpty) then
            ⟨.EMPTY_GROUP, "Matched design group is empty", some l⟩
          else if jsTrim l.name = normalized then
            ⟨.RESOLVED, "Design group resolved", some l⟩
          else
            ⟨.CASE_MISMATCH, "Design group resolved with a case mismatch", some l⟩

/-- Concrete inner layer for the C3 examples. -/
def c3child : SLayer := .mk "layer-0.0" "glyph" .layer true 1 ⟨0, 0, 1, 1⟩ none

/-- Concrete lower-case design group for the C3 examples. -/
def c3lower : SLayer := .mk "layer-0" "symbols" .group true 1 ⟨0, 0, 10, 10⟩ (some [c3child])

/-- Concrete exact-case design group for the C3 examples. -/
def c3upper : SLayer := .mk "layer-1" "SYMBOLS" .group true 1 ⟨0, 0, 10, 10⟩ (some [c3child])

/-- Concrete empty design group for the C3 examples. -/
def c3empty : SLayer := .mk "layer-2" "SYMBOLS" .group true 1 ⟨0, 0, 10, 10⟩ (some [])

/-- `ValidationIssue`: `{layerName, containerName, type, message}`. -/
structure ValidationIssue where
  layerName : String
  containerName : String
  issueKind : String
  message : String
deriving Repr, DecidableEq

/-- `DesignValidationReport`: `{isValid, issues}`. -/
structure DesignValidationReport where
  isValid : Bool
  issues : List ValidationIssue
deriving Repr, DecidableEq

/-- Lookup in the validator's name-keyed container index (`Map.set` in
iteration order, so a later container with the same name overwrites an
earlier one — hence the lookup scans the reversed list). -/
def containerIndexGet (containers : List ContainerDefinition) (name : String) :
    Option ContainerDefinition :=
  containers.reverse.find? fun c => c.name == name

/-- The validator's per-child check: children lacking any numeric coordinate
are skipped; otherwise a violation is flagged iff the child escapes the
container's `(x, y, x+w, y+h)` box in any of the four directions (strict
inequalities, logical OR). -/
def layerViolation (container : ContainerDefinition) (layer : Layer) :
    Option ValidationIssue :=
  match layer.top, layer.left, layer.bottom, layer.rightEdge with
  | some t, some l, some b, some r =>
    let containerRight := container.bounds.x + container.bounds.w
    let containerBottom := container.bounds.y + container.bounds.h
    if l < container.bounds.x ∨ t < container.bounds.y ∨
        r > containerRight ∨ b > containerBottom then
      some ⟨jsOrStr layer.name "Untitled Layer", container.name,
        "PROCEDURAL_VIOLATION",
        "Layer '" ++ jsInterp layer.name ++ "' extends outside '" ++
          container.name ++ "' container."⟩
    else none
  | _, _, _, _ => none

/-- `mapLayersToContainers` (`psdService.ts`): skips the `'!!TEMPLATE'`
group, and for every top-level group whose (truthy) name matches an indexed
container, collects `layerViolation` over its direct children; the report is
valid iff no issue was collected. -/
def mapLayersToContainers (psd : Psd) (template : TemplateMetadata) :
    DesignValidationReport :=
  let issues := (psd.children.getD []).flatMap fun group =>
    if group.name == some "!!TEMPLATE" then []
    else
      match group.name with
      | none => []
      | some gname =>
        if gname = "" then []
        else
          match containerIndexGet template.containers gname with
          | none => []
          | some container =>
            (group.children.getD []).filterMap (layerViolation container)
  ⟨issues.isEmpty, issues⟩

/-- The concrete container for the C7 witness: box `(0, 0)`–`(100, 50)`. -/
def c7container : ContainerDefinition :=
  ⟨"container-0-SYMBOLS", "SYMBOLS", "!!SYMBOLS", ⟨0, 0, 100, 50⟩, ⟨0, 0, 0, 0⟩⟩

/-- C7 witness layer sitting exactly on the container's right edge. -/
def c7edgeLayer : Layer :=
  .mk (some "edge") (some 0) (some 90) (some 10) (some 100) none none none

/-- C7 witness layer overflowing the container's right edge by one pixel. -/
def c7overLayer : Layer :=
  .mk (some "over") (some 0) (some 90) (some 10) (some 101) none none none

/-- The decimal digit character for `d < 10` (JS number-to-string). -/
def digitChar (d : Nat) : Char := Char.ofNat (48 + d)

/-- Decimal rendering of a natural number, as its character list (the JS
template-literal rendering `` `${index}` ``). -/
def renderNatCore (n : Nat) : List Char :=
  if n < 10 then [digitChar n]
  else renderNatCore (n / 10) ++ [digitChar (n % 10)]
termination_by n
decreasing_by exact Nat.div_lt_self (by omega) (by omega)

/-- Decimal rendering of a natural number as a string. -/
def renderNat (n : Nat) : String := ⟨renderNatCore n⟩

/-- JS `s.replace(/\s+/g, '_')`: every maximal whitespace run becomes a
single underscore.  The boolean argument records whether the previous
character was whitespace. -/
def collapseWsAux : Bool → List Char → List Char
  | _, [] => []
  | prevWs, c :: cs =>
    if c.isWhitespace then
      if prevWs then collapseWsAux true cs else '_' :: collapseWsAux true cs
    else c :: collapseWsAux false cs

/-- JS `s.replace(/\s+/g, '_')` on strings. -/
def collapseWs (s : String) : String := ⟨collapseWsAux false s.data⟩

/-- `extractTemplateMetadata` (`psdService.ts`, the `originalName`-carrying
version): canvas dimensions default to 1 when falsy; the unique top-level
child named exactly `'!!TEMPLATE'` supplies the containers; for each child,
in order, bounds come from its edge coordinates (missing edges default to
0), `name` is the raw name with one leading literal `"!!"` removed, and
`originalName` is the raw name. -/
def extractTemplateMetadata (psd : Psd) : TemplateMetadata :=
  let canvasWidth := jsOrOne psd.width
  let canvasHeight := jsOrOne psd.height
  let containers :=
    match psd.children with
    | none => []
    | some kids =>
      match kids.find? (fun child => child.name == some "!!TEMPLATE") with
      | none => []
      | some tg =>
        match tg.children with
        | none => []
        | some tchildren =>
          tchildren.enum.map fun p =>
            let child := p.2
            let top := child.top.getD 0
            let left := child.left.getD 0
            let bottom := child.bottom.getD 0
            let r := child.rightEdge.getD 0
            let width := r - left
            let height := bottom - top
            let rawName := jsOrStr child.name "Untitled"
            let cleanName := stripMarkerPair rawName
            { id := "container-" ++ renderNat p.1 ++ "-" ++ collapseWs cleanName
              name := cleanName
              originalName := rawName
              bounds := ⟨left, top, width, height⟩
              normalized := ⟨left / canvasWidth, top / canvasHeight,
                width / canvasWidth, height / canvasHeight⟩ }
  ⟨⟨canvasWidth, canvasHeight⟩, containers⟩

/-- The claim's name-derivation rule, stated from the spec's words: strip a
leading run of one or more marker characters and the following whitespace
from the raw name. -/
def specMarkerStrip (s : String) : String :=
  ⟨(s.data.dropWhile (· = '!')).dropWhile Char.isWhitespace⟩

/-- The concrete document for the C4 counterexample: a `'!!TEMPLATE'` group
with children named `"!SYMBOLS"`, `"!!SYMBOLS"` and `"!!! SYMBOLS"`. -/
def c4psd : Psd :=
  ⟨some 800, some 600, some
    [.mk (some "!!TEMPLATE") (some 0) (some 0) (some 0) (some 0) none none
      (some
        [.mk (some "!SYMBOLS") (some 0) (some 0) (some 10) (some 10) none none none,
         .mk (some "!!SYMBOLS") (some 0) (some 0) (some 10) (some 10) none none none,
         .mk (some "!!! SYMBOLS") (some 0) (some 0) (some 10) (some 10) none none none])]⟩

/-- JS `s.replace('layer-', '')` on character lists: remove the first
occurrence of the pattern, leaving the rest unchanged. -/
def dropFirstOcc (pat : List Char) : List Char → List Char
  | [] => []
  | c :: cs =>
    if pat.isPrefixOf (c :: cs) then (c :: cs).drop pat.length
    else c :: dropFirstOcc pat cs

/-- JS `s.split('.')` on character lists. -/
def splitOnDot : List Char → List (List Char)
  | [] => [[]]
  | c :: cs =>
    let r := splitOnDot cs
    if c = '.' then [] :: r
    else
      match r with
      | [] => [[c]]
      | g :: gs => (c :: g) :: gs

/-- One fold step of decimal parsing: accumulate a digit or fail. -/
def parseDigitsStep (acc : Option Nat) (c : Char) : Option Nat :=
  match acc with
  | none => none
  | some a => if c.isDigit then some (a * 10 + (c.toNat - 48)) else none

/-- Decimal parse of a character list; the empty list parses as `0`. -/
def parseDigits (cs : List Char) : Option Nat :=
  cs.foldl parseDigitsStep (some 0)

/-- A run of decimal digits; unlike `parseDigits`, the empty run is
rejected (as in the JS numeric grammar, where a `DecimalDigits` position
needs at least one digit). -/
def parseDecRun (cs : List Char) : Option Nat :=
  if cs.isEmpty then none else parseDigits cs

/-- The value of a hexadecimal digit character. -/
def hexDigitVal (c : Char) : Option Nat :=
  if c.isDigit then some (c.toNat - 48)
  else if 'a' ≤ c ∧ c ≤ 'f' then some (c.toNat - 87)
  else if 'A' ≤ c ∧ c ≤ 'F' then some (c.toNat - 55)
  else none

/-- The value of an octal digit character. -/
def octDigitVal (c : Char) : Option Nat :=
  if '0' ≤ c ∧ c ≤ '7' then some (c.toNat - 48) else none

/-- The value of a binary digit character. -/
def binDigitVal (c : Char) : Option Nat :=
  if c = '0' then some 0 else if c = '1' then some 1 else none

/-- A non-empty run of digits in the given radix (JS `0x`/`0o`/`0b`
literal bodies). -/
def parseRadixRun (radix : Nat) (dv : Char → Option Nat) (cs : List Char) :
    Option Nat :=
  if cs.isEmpty then none
  else cs.foldl (fun acc c => acc.bind fun a => (dv c).map fun d => a * radix + d)
    (some 0)

/-- Split a segment at its first exponent marker `e`/`E`, when present. -/
def splitExpMark : List Char → List Char × Option (List Char)
  | [] => ([], none)
  | c :: cs =>
    if c = 'e' ∨ c = 'E' then ([], some cs)
    else
      let p := splitExpMark cs
      (c :: p.1, p.2)

/-- An optionally signed non-empty digit run (JS `SignedInteger` /
signed `DecimalDigits`): the flag records a leading `'-'`. -/
def parseSignedRun (cs : List Char) : Option (Bool × Nat) :=
  match cs with
  | [] => none
  | c :: rest =>
    if c = '+' then (parseDecRun rest).map (fun m => (false, m))
    else if c = '-' then (parseDecRun rest).map (fun m => (true, m))
    else (parseDecRun (c :: rest)).map (fun m => (false, m))

/-- The array element index denoted by the signed value
`±m × 10^(±e)`: `0` for a zero mantissa (including `-0`), the exact
product for a non-negative exponent, the exact quotient when the power of
ten divides the mantissa, and `none` for negative or fractional values
(whose array access is `undefined`). -/
def decIndexVal (mNeg : Bool) (m : Nat) (eNeg : Bool) (e : Nat) : Option Nat :=
  if m = 0 then some 0
  else if mNeg then none
  else if eNeg then
    if m % 10 ^ e = 0 then some (m / 10 ^ e) else none
  else some (m * 10 ^ e)

/-- The index denoted by a decimal segment (optional sign, digit run,
optional signed exponent); `none` when the segment is not of that form
(JS `NaN`, including `Infinity` forms) or its value is not a non-negative
integer. -/
def decSegment (t : List Char) : Option Nat :=
  (parseSignedRun (splitExpMark t).1).bind fun sm =>
    match (splitExpMark t).2 with
    | none => decIndexVal sm.1 sm.2 false 0
    | some ecs =>
      (parseSignedRun ecs).bind fun se => decIndexVal sm.1 sm.2 se.1 se.2

/-- The index denoted by a trimmed non-empty segment: an unsigned
`0x`/`0X`, `0o`/`0O` or `0b`/`0B` radix literal, or a signed decimal with
optional exponent. -/
def jsSegmentIndex (t : List Char) : Option Nat :=
  match t with
  | c0 :: c1 :: rest =>
    if c0 = '0' ∧ (c1 = 'x' ∨ c1 = 'X') then parseRadixRun 16 hexDigitVal rest
    else if c0 = '0' ∧ (c1 = 'o' ∨ c1 = 'O') then parseRadixRun 8 octDigitVal rest
    else if c0 = '0' ∧ (c1 = 'b' ∨ c1 = 'B') then parseRadixRun 2 binDigitVal rest
    else decSegment (c0 :: c1 :: rest)
  | t => decSegment t

/-- JS `Number(segment)` used as an array element index, for the dot-free
segments `split('.')` produces: the result is the index `i` such that
`array[Number(segment)]` denotes element `i`, and `none` whenever that
access is `undefined` for every array — `NaN`, `±Infinity`, negative or
fractional values.  Surrounding (ASCII) whitespace is trimmed and the empty
or all-whitespace segment is index `0` (JS `Number('') === 0`); signed
decimals (`'+12'`, `'-0'`), exponent forms (`'1e2'`, `'100E-2'`) and
unsigned radix literals (`'0x10'`, `'0o17'`, `'0b101'`) parse as in JS.
Arithmetic is exact here: double rounding and the 2^32 array-length cap
only affect indices beyond any JS-representable array. -/
def jsArrayIndex (cs : List Char) : Option Nat :=
  let t := trimChars cs
  if t.isEmpty then some 0
  else jsSegmentIndex t

/-- The index walk of `findLayerByPath`: `foundLayer` starts as `null`; for
each index, a missing children array or missing element aborts with `null`,
otherwise the walk descends into that element's children. -/
def walkPath : Option (List Layer) → List (Option Nat) → Option Layer → Option Layer
  | _, [], found => found
  | children, i :: rest, _ =>
    match children, i with
    | some cs, some idx =>
      match cs.get? idx with
      | some l => walkPath l.children rest (some l)
      | none => none
    | _, _ => none

/-- `findLayerByPath` (`psdService.ts`): strips the first `'layer-'`
occurrence, rejects an empty remainder, splits on `'.'`, maps `Number`, and
walks the document's children by index. -/
def findLayerByPath (psd : Psd) (layerId : String) : Option Layer :=
  let pathChars := dropFirstOcc "layer-".data layerId.data
  if pathChars = [] then none
  else walkPath psd.children ((splitOnDot pathChars).map jsArrayIndex) none

mutual

/-- `child.children ? 'group' : 'layer'`. -/
def kindOfChildren (kids : Option (List Layer)) : LayerKind :=
  match kids with
  | some _ => .group
  | none => .layer

/-- `getCleanLayerTree`'s recursive worker (`psdService.ts`): walks children
with their sibling `index`, skips any child named `'!!TEMPLATE'` (its index
still counts), builds `currentPath` as `path ? path + '.' + index : index`,
and emits a `SLayer` with `id = 'layer-' + currentPath`,
`type = children ? 'group' : 'layer'`, `isVisible = hidden !== true`,
`opacity` rescaled from 0–255, and `coords` from edge coordinates. -/
def cleanLayers : List Layer → String → Nat → List SLayer
  | [], _, _ => []
  | .mk nm t l b r hid op kids :: rest, path, index =>
    (if nm == some "!!TEMPLATE" then []
     else
       let currentPath :=
         if path = "" then renderNat index else path ++ "." ++ renderNat index
       [SLayer.mk ("layer-" ++ currentPath) (jsOrStr nm "Untitled")
          (kindOfChildren kids)
          (if hid == some true then false else true)
          ((op.map (fun v => v / 255)).getD 1)
          ⟨l.getD 0, t.getD 0, r.getD 0 - l.getD 0, b.getD 0 - t.getD 0⟩
          (cleanChildren kids currentPath)])
      ++ cleanLayers rest path (index + 1)

/-- `child.children ? getCleanLayerTree(child.children, currentPath) :
undefined`. -/
def cleanChildren : Option (List Layer) → String → Option (List SLayer)
  | none, _ => none
  | some cs, p => some (cleanLayers cs p 0)

end

/-- `getCleanLayerTree` (`psdService.ts`): the conversion entry point, with
the empty root path. -/
def getCleanLayerTree (layers : List Layer) (path : String := "") : List SLayer :=
  cleanLayers layers path 0

mutual

/-- The ids of a serializable forest, in preorder. -/
def cleanIds : List SLayer → List String
  | [] => []
  | .mk i _ _ _ _ _ kids :: rest => i :: (cleanIdsOpt kids ++ cleanIds rest)

/-- The ids of an optional serializable child forest, in preorder. -/
def cleanIdsOpt : Option (List SLayer) → List String
  | none => []
  | some ls => cleanIds ls

end

mutual

/-- The (index path, original node) pairs emitted by the conversion, in
preorder, starting the sibling count at `i`: a child named `'!!TEMPLATE'`
contributes nothing but still consumes its index. -/
def emitIdx : List Layer → Nat → List (List Nat × Layer)
  | [], _ => []
  | .mk nm t l b r hid op kids :: rest, i =>
    (if nm == some "!!TEMPLATE" then []
     else ([i], .mk nm t l b r hid op kids) ::
       (emitIdxOpt kids).map (fun q => (i :: q.1, q.2)))
      ++ emitIdx rest (i + 1)

/-- `emitIdx` on an optional child forest, restarting the count at 0. -/
def emitIdxOpt : Option (List Layer) → List (List Nat × Layer)
  | none => []
  | some cs => emitIdx cs 0

end

/-- Decimal rendering of an index path, dot-separated. -/
def renderPathCore : List Nat → List Char
  | [] => []
  | [i] => renderNatCore i
  | i :: is => renderNatCore i ++ '.' :: renderPathCore is

/-- Decimal rendering of an index path as a string. -/
def renderPath (is : List Nat) : String := ⟨renderPathCore is⟩

/-- The claim's clean index-path lookup: the node reached from the root
children by taking the listed child indices in order; `none` on the empty
path, a missing children array, or an out-of-range index. -/
def nodeAtPath : Option (List Layer) → List Nat → Option Layer
  | _, [] => none
  | none, _ :: _ => none
  | some cs, i :: rest =>
    (cs.get? i).bind fun l =>
      if rest.isEmpty then some l else nodeAtPath l.children rest

/-- Increment the head index of an emitted pair. -/
def headShift : List Nat × Layer → List Nat × Layer
  | ⟨[], l⟩ => ⟨[], l⟩
  | ⟨j :: rest, l⟩ => ⟨(j + 1) :: rest, l⟩

/-- The grandchild node of the C9 document. -/
def c9grand : Layer :=
  .mk (some "grand") (some 1) (some 2) (some 3) (some 4) none none none

/-- The parent node of the C9 document. -/
def c9parent : Layer :=
  .mk (some "parent") (some 0) (some 0) (some 9) (some 9) none none (some [c9grand])

/-- The concrete document for the C9 examples. -/
def c9psd : Psd := ⟨some 100, some 100, some [c9parent]⟩

mutual

/-- Every layer of the transformed subtree is related to its source layer by
`remapRel`: the code's stretch projection for positions and uniform scale for
dimensions, at every depth. -/
theorem transformLayers_remapRel (sourceRect targetRect : Rect) (scale : ℚ) :
    ∀ ls : List SLayer,
      List.Forall₂ (remapRel sourceRect targetRect scale)
        (flattenS ls) (flattenT (transformLayers sourceRect targetRect scale ls))
  | [] => by
    simp [flattenS, transformLayers, flattenT]
  | .mk i n k v o c cs :: ls => by
    rw [transformLayers, transformOne, flattenS, flattenT]
    refine List.Forall₂.cons ?_ ?_
    · refine ⟨rfl, rfl, rfl, rfl, rfl, rfl⟩
    · refine List.rel_append ?_ (transformLayers_remapRel sourceRect targetRect scale ls)
      have h := transformChildren_remapRel sourceRect targetRect scale cs
      simpa using h

/-- Child-forest version of `transformLayers_remapRel`. -/
theorem transformChildren_remapRel (sourceRect targetRect : Rect) (scale : ℚ) :
    ∀ cs : Option (List SLayer),
      List.Forall₂ (remapRel sourceRect targetRect scale)
        (flattenSOpt cs) (flattenTOpt (transformChildren sourceRect targetRect scale cs))
  | none => by
    simp [flattenSOpt, transformChildren, flattenTOpt]
  | some ls => by
    rw [flattenSOpt, transformChildren, flattenTOpt]
    exact transformLayers_remapRel sourceRect targetRect scale ls

end

/-- C1, counterexample: on the spec's own example (`sourceRect = {0,0,100,200}`,
`targetRect = {0,0,50,50}`, layer at `{x:25,y:50,w:10,h:10}`) the Remapper
places the layer at `x = 12.5` (`targetRect.x + relX * targetRect.w`), while
the claimed anchored formula `anchorX + relX * sourceRect.w * scale` gives
`anchorX + 6.25 = 18.75`; the two disagree. -/
theorem remap_example_x_not_anchored :
    ((transformationPayload "SYMBOLS" ⟨0, 0, 100, 200⟩
        [.mk "layer-0" "art" .layer true 1 ⟨25, 50, 10, 10⟩ none]
        "SLOT" ⟨0, 0, 50, 50⟩).layers.map (fun t => t.coords.x)) = [25/2]
    ∧ specProjectedX ⟨0, 0, 100, 200⟩ ⟨0, 0, 50, 50⟩
        (remapScale ⟨0, 0, 100, 200⟩ ⟨0, 0, 50, 50⟩) 25 = 75/4
    ∧ specAnchorX ⟨0, 0, 100, 200⟩ ⟨0, 0, 50, 50⟩
        (remapScale ⟨0, 0, 100, 200⟩ ⟨0, 0, 50, 50⟩) + 25/4 = 75/4
    ∧ (25/2 : ℚ) ≠ 75/4 := by
  refine ⟨?_, ?_, ?_, by norm_num⟩
  · norm_num [transformationPayload, transformLayers, transformOne, TLayer.coords, min_def]
  · norm_num [specProjectedX, specAnchorX, remapScale, min_def]
  · norm_num [specAnchorX, remapScale, min_def]

/-- C1, amended: for every source rectangle with positive width and height,
every target rectangle, and every layer in the subtree, the base remap places
the layer at `newX = targetRect.x + relX * targetRect.w` and
`newY = targetRect.y + relY * targetRect.h` — positions are re-normalized
into the target rectangle's own dimensions (anisotropic stretch), not
projected by a shared centered anchor under the uniform scale. -/
theorem remap_positions_stretch (srcName tgtName : String)
    (sourceRect targetRect : Rect) (hw : 0 < sourceRect.w) (hh : 0 < sourceRect.h)
    (ls : List SLayer) :
    List.Forall₂ (fun s t =>
        t.coords.x = targetRect.x + (s.coords.x - sourceRect.x) / sourceRect.w * targetRect.w ∧
        t.coords.y = targetRect.y + (s.coords.y - sourceRect.y) / sourceRect.h * targetRect.h)
      (flattenS ls)
      (flattenT (transformationPayload srcName sourceRect ls tgtName targetRect).layers) := by
  have h := transformLayers_remapRel sourceRect targetRect
    (remapScale sourceRect targetRect) ls
  exact h.imp fun s t ht => ⟨ht.1, ht.2.1⟩

/-- Closed witness for `remap_positions_stretch` at the spec's example
geometry. -/
theorem remap_positions_stretch_witness :
    (0:ℚ) < 100 ∧ (0:ℚ) < 200 ∧
    List.Forall₂ (fun (s : SLayer) (t : TLayer) =>
        t.coords.x = (Rect.mk 0 0 50 50).x +
          (s.coords.x - (Rect.mk 0 0 100 200).x) / (Rect.mk 0 0 100 200).w *
            (Rect.mk 0 0 50 50).w ∧
        t.coords.y = (Rect.mk 0 0 50 50).y +
          (s.coords.y - (Rect.mk 0 0 100 200).y) / (Rect.mk 0 0 100 200).h *
            (Rect.mk 0 0 50 50).h)
      (flattenS [.mk "layer-0" "art" .layer true 1 ⟨25, 50, 10, 10⟩ none])
      (flattenT (transformationPayload "SYMBOLS" ⟨0, 0, 100, 200⟩
        [.mk "layer-0" "art" .layer true 1 ⟨25, 50, 10, 10⟩ none]
        "SLOT" ⟨0, 0, 50, 50⟩).layers) :=
  ⟨by norm_num, by norm_num,
    remap_positions_stretch "SYMBOLS" "SLOT" ⟨0, 0, 100, 200⟩ ⟨0, 0, 50, 50⟩
      (by norm_num) (by norm_num)
      [.mk "layer-0" "art" .layer true 1 ⟨25, 50, 10, 10⟩ none]⟩

/-- C5: for every source rectangle with positive width and height and every
target rectangle, the remap's scale factor equals
`min(targetRect.w / sourceRect.w, targetRect.h / sourceRect.h)`, and every
transformed layer in the subtree has `newW = w * scale`, `newH = h * scale`
with that same scale recorded on both transform axes (aspect ratio of layer
dimensions is preserved). -/
theorem remap_scale_uniform (srcName tgtName : String)
    (sourceRect targetRect : Rect) (hw : 0 < sourceRect.w) (hh : 0 < sourceRect.h)
    (ls : List SLayer) :
    (transformationPayload srcName sourceRect ls tgtName targetRect).scaleFactor
      = min (targetRect.w / sourceRect.w) (targetRect.h / sourceRect.h)
    ∧ List.Forall₂ (fun s t =>
        t.coords.w = s.coords.w * remapScale sourceRect targetRect ∧
        t.coords.h = s.coords.h * remapScale sourceRect targetRect ∧
        t.transform.scaleX = remapScale sourceRect targetRect ∧
        t.transform.scaleY = remapScale sourceRect targetRect)
      (flattenS ls)
      (flattenT (transformationPayload srcName sourceRect ls tgtName targetRect).layers) := by
  refine ⟨rfl, ?_⟩
  have h := transformLayers_remapRel sourceRect targetRect
    (remapScale sourceRect targetRect) ls
  exact h.imp fun s t ht => ⟨ht.2.2.1, ht.2.2.2.1, ht.2.2.2.2.1, ht.2.2.2.2.2⟩

/-- Closed witness for `remap_scale_uniform` at the spec's example geometry:
the scale factor there is `min(50/100, 50/200) = 0.25`. -/
theorem remap_scale_uniform_witness :
    (0:ℚ) < 100 ∧ (0:ℚ) < 200 ∧
    (transformationPayload "SYMBOLS" ⟨0, 0, 100, 200⟩ [] "SLOT" ⟨0, 0, 50, 50⟩).scaleFactor
      = min ((50:ℚ) / 100) ((50:ℚ) / 200)
    ∧ min ((50:ℚ) / 100) ((50:ℚ) / 200) = 1/4 :=
  ⟨by norm_num, by norm_num,
    (remap_scale_uniform "SYMBOLS" "SLOT" ⟨0, 0, 100, 200⟩ ⟨0, 0, 50, 50⟩
      (by norm_num) (by norm_num) []).1,
    by norm_num [min_def]⟩

/-- C2: the remap performs no zero-area check on the source rectangle: the
payload's `status` is `'success'` for every input, including a zero-width
source, where the relative-position divisions are performed unguarded; at
the failing input the payload still carries a transformed layer. -/
theorem transformationPayload_no_degenerate_guard :
    (∀ (srcName tgtName : String) (sourceBounds targetBounds : Rect)
        (ls : List SLayer),
      (transformationPayload srcName sourceBounds ls tgtName targetBounds).status
        = "success")
    ∧ (transformationPayload "SYMBOLS" ⟨0, 0, 0, 100⟩
        [.mk "layer-0" "art" .layer true 1 ⟨25, 50, 10, 10⟩ none]
        "SLOT" ⟨0, 0, 50, 50⟩).status = "success"
    ∧ (transformationPayload "SYMBOLS" ⟨0, 0, 0, 100⟩
        [.mk "layer-0" "art" .layer true 1 ⟨25, 50, 10, 10⟩ none]
        "SLOT" ⟨0, 0, 50, 50⟩).layers.length = 1 := by
  refine ⟨fun _ _ _ _ _ => rfl, rfl, ?_⟩
  simp [transformationPayload, transformLayers]

example : stripBangs "!!!SYMBOLS" = "SYMBOLS" := by decide

example : stripMarkerPair "!SYMBOLS" = "!SYMBOLS" := by decide

example : stripMarkerPair "!!! SYMBOLS" = "! SYMBOLS" := by decide

example : jsToLower (jsTrim "  SyMbOls ") = "symbols" := by decide

/-- First-match characterization of `List.find?`: a found element is the
element at some index `i` satisfying the predicate while every earlier index
fails it. -/
theorem find?_some_first {α : Type} (p : α → Bool) :
    ∀ (l : List α) (a : α), l.find? p = some a →
      ∃ i, l.get? i = some a ∧ p a = true ∧
        ∀ j b, j < i → l.get? j = some b → p b = false
  | [], a, h => by simp [List.find?] at h
  | x :: xs, a, h => by
    by_cases hx : p x = true
    · rw [List.find?_cons_of_pos _ hx] at h
      obtain rfl : x = a := by injection h
      exact ⟨0, by simp, hx, fun j b hj => by omega⟩
    · have hx' : p x = false := by
        cases hpx : p x
        · rfl
        · exact absurd hpx hx
      rw [List.find?_cons_of_neg _ (by simp [hx'])] at h
      obtain ⟨i, hi, hpa, hearlier⟩ := find?_some_first p xs a h
      refine ⟨i + 1, by simpa using hi, hpa, ?_⟩
      intro j b hj hjb
      cases j with
      | zero =>
        obtain rfl : x = b := by simpa using hjb
        exact hx'
      | succ j' =>
        exact hearlier j' b (by omega) (by simpa using hjb)

/-- C8: for a requested name that is non-empty (and still non-empty after
stripping the leading `'!'` run and trimming), `resolveLayer` returns the
first top-level layer in array order whose trimmed, case-folded name equals
the case-folded normalized requested name, and `none` when no top-level name
matches; a null tree or an empty requested name yields the defined `none`
outcome. -/
theorem resolveLayer_first_match (name : String) (tree : List SLayer) :
    resolveLayer name none = none
    ∧ resolveLayer "" (some tree) = none
    ∧ (name ≠ "" → jsTrim (stripBangs name) ≠ "" →
        ((∀ l, resolveLayer name (some tree) = some l →
            ∃ i, tree.get? i = some l
              ∧ jsToLower (jsTrim l.name) = jsToLower (jsTrim (stripBangs name))
              ∧ ∀ j l', j < i → tree.get? j = some l' →
                  jsToLower (jsTrim l'.name) ≠ jsToLower (jsTrim (stripBangs name)))
          ∧ (resolveLayer name (some tree) = none →
              ∀ l ∈ tree,
                jsToLower (jsTrim l.name) ≠ jsToLower (jsTrim (stripBangs name))))) := by
  refine ⟨rfl, by simp [resolveLayer], ?_⟩
  intro h1 h2
  constructor
  · intro l hl
    rw [resolveLayer] at hl
    simp only [if_neg h1, if_neg h2] at hl
    obtain ⟨i, hi, hp, hearlier⟩ := find?_some_first _ tree l hl
    refine ⟨i, hi, by simpa using hp, ?_⟩
    intro j l' hj hjl
    have := hearlier j l' hj hjl
    simpa using this
  · intro hn l hl
    rw [resolveLayer] at hn
    simp only [if_neg h1, if_neg h2] at hn
    have := List.find?_eq_none.mp hn l hl
    simpa using this

/-- Closed witness for `resolveLayer_first_match`: resolving `"!!SYMBOLS"`
against a single group named `"symbols"` finds that group first. -/
theorem resolveLayer_first_match_witness :
    ∃ i, [c8layer].get? i = some c8layer
      ∧ jsToLower (jsTrim c8layer.name) = jsToLower (jsTrim (stripBangs "!!SYMBOLS"))
      ∧ ∀ j l', j < i → [c8layer].get? j = some l' →
          jsToLower (jsTrim l'.name) ≠ jsToLower (jsTrim (stripBangs "!!SYMBOLS")) :=
  ((resolveLayer_first_match "!!SYMBOLS" [c8layer]).2.2 (by decide) (by decide)).1
    c8layer rfl

/-- C10: `createContainerContext` matches container names by exact,
case-sensitive equality with no marker stripping or trimming: it returns the
first strictly-equal container's name, bounds and the template's canvas
dimensions, and `none` otherwise; a requested name differing only by case or
by a `"!!"` prefix yields `none`. -/
theorem createContainerContext_exact :
    (∀ (template : TemplateMetadata) (requested : String),
        (createContainerContext template requested = none ↔
          ∀ c ∈ template.containers, c.name ≠ requested)
      ∧ ∀ ctx, createContainerContext template requested = some ctx →
          ∃ i c, template.containers.get? i = some c ∧ c.name = requested
            ∧ ctx = ⟨c.name, c.bounds, template.canvas.width, template.canvas.height⟩
            ∧ ∀ j c', j < i → template.containers.get? j = some c' →
                c'.name ≠ requested)
    ∧ createContainerContext c10template "symbols" = none
    ∧ createContainerContext c10template "!!SYMBOLS" = none
    ∧ createContainerContext c10template "SYMBOLS"
        = some ⟨"SYMBOLS", ⟨1, 2, 3, 4⟩, 800, 600⟩ := by
  refine ⟨fun template requested => ⟨?_, ?_⟩, rfl, rfl, rfl⟩
  · rw [createContainerContext]
    constructor
    · intro h c hc
      cases hfind : template.containers.find? (fun c => c.name == requested) with
      | none =>
        have := List.find?_eq_none.mp hfind c hc
        simpa using this
      | some c' => rw [hfind] at h; exact absurd h (by simp)
    · intro h
      cases hfind : template.containers.find? (fun c => c.name == requested) with
      | none => rfl
      | some c' =>
        obtain ⟨i, hi, hp, _⟩ := find?_some_first _ template.containers c' hfind
        have hc' : c' ∈ template.containers := List.get?_mem hi
        exact absurd (by simpa using hp) (h c' hc')
  · intro ctx hctx
    rw [createContainerContext] at hctx
    cases hfind : template.containers.find? (fun c => c.name == requested) with
    | none => rw [hfind] at hctx; exact absurd hctx (by simp)
    | some c =>
      rw [hfind] at hctx
      obtain ⟨i, hi, hp, hearlier⟩ := find?_some_first _ template.containers c hfind
      refine ⟨i, c, hi, by simpa using hp, by injection hctx with h; exact h.symm, ?_⟩
      intro j c' hj hjc
      have := hearlier j c' hj hjc
      simpa using this

/-- Closed witness for `createContainerContext_exact`: an exact-name request
against the concrete template resolves to the first (index 0) container. -/
theorem createContainerContext_exact_witness :
    ∃ i c, c10template.containers.get? i = some c ∧ c.name = "SYMBOLS"
      ∧ (⟨"SYMBOLS", ⟨1, 2, 3, 4⟩, 800, 600⟩ : ContainerContext)
          = ⟨c.name, c.bounds, c10template.canvas.width, c10template.canvas.height⟩
      ∧ ∀ j c', j < i → c10template.containers.get? j = some c' →
          c'.name ≠ "SYMBOLS" :=
  (createContainerContext_exact.1 c10template "SYMBOLS").2
    ⟨"SYMBOLS", ⟨1, 2, 3, 4⟩, 800, 600⟩ rfl

/-- C3: every resolution outcome carries a non-empty human-readable message
and a nullable layer, `resolveLayer` itself never reports the caller-side
`DATA_LOCKED` code, and the statuses `RESOLVED`, `CASE_MISMATCH`,
`EMPTY_GROUP`, `MISSING_DESIGN_GROUP` and `NO_NAME` are each produced;
in particular `"!!SYMBOLS"` against `[{name:"symbols"}]` is a
`CASE_MISMATCH` that still returns the layer, while against
`[{name:"SYMBOLS"}]` it is `RESOLVED`. -/
theorem resolveLayerStructured_outcomes :
    (∀ (n : String) (t : Option (List SLayer)),
        (resolveLayerStructured n t).message ≠ ""
        ∧ (resolveLayerStructured n t).status ≠ ResolverStatus.DATA_LOCKED)
    ∧ (resolveLayerStructured "!!SYMBOLS" (some [c3lower])).status
        = ResolverStatus.CASE_MISMATCH
    ∧ (resolveLayerStructured "!!SYMBOLS" (some [c3lower])).layer = some c3lower
    ∧ (resolveLayerStructured "!!SYMBOLS" (some [c3upper])).status
        = ResolverStatus.RESOLVED
    ∧ (resolveLayerStructured "!!SYMBOLS" (some [c3upper])).layer = some c3upper
    ∧ (resolveLayerStructured "!!SYMBOLS" (some [c3empty])).status
        = ResolverStatus.EMPTY_GROUP
    ∧ (resolveLayerStructured "!!MISSING" (some [c3lower])).status
        = ResolverStatus.MISSING_DESIGN_GROUP
    ∧ (resolveLayerStructured "X" none).status
        = ResolverStatus.MISSING_DESIGN_GROUP
    ∧ (resolveLayerStructured "" (some [c3upper])).status
        = ResolverStatus.NO_NAME := by
  refine ⟨?_, rfl, rfl, rfl, rfl, rfl, rfl, rfl, rfl⟩
  intro n t
  rw [resolveLayerStructured.eq_def]
  rcases t with _ | tree
  · exact ⟨by simp, by simp⟩
  · dsimp only
    split
    · exact ⟨by simp, by simp⟩
    · split
      · exact ⟨by simp, by simp⟩
      · split
        · exact ⟨by simp, by simp⟩
        · split
          · exact ⟨by simp, by simp⟩
          · split
            · exact ⟨by simp, by simp⟩
            · exact ⟨by simp, by simp⟩

/-- C7: the validator flags a coordinate-bearing direct child iff it escapes
the container box in at least one of the four directions under strict
inequalities (logical OR), so a child exactly on the edge is not a violation
and a one-pixel single-axis overflow is; children lacking numeric
coordinates are skipped; and the report's `isValid` holds iff the issue list
is empty. -/
theorem mapLayersToContainers_or_semantics :
    (∀ (psd : Psd) (template : TemplateMetadata),
        (mapLayersToContainers psd template).isValid = true ↔
          (mapLayersToContainers psd template).issues = [])
    ∧ (∀ (container : ContainerDefinition) (layer : Layer) (t l b r : ℚ),
        layer.top = some t → layer.left = some l → layer.bottom = some b →
        layer.rightEdge = some r →
        ((layerViolation container layer).isSome ↔
          (l < container.bounds.x ∨ t < container.bounds.y ∨
            r > container.bounds.x + container.bounds.w ∨
            b > container.bounds.y + container.bounds.h)))
    ∧ (∀ (container : ContainerDefinition) (layer : Layer),
        (layer.top = none ∨ layer.left = none ∨ layer.bottom = none ∨
          layer.rightEdge = none) →
        layerViolation container layer = none) := by
  refine ⟨?_, ?_, ?_⟩
  · intro psd template
    simp [mapLayersToContainers, List.isEmpty_iff]
  · intro container layer t l b r ht hl hb hr
    obtain ⟨nm, t0, l0, b0, r0, hd, o0, cs0⟩ := layer
    simp only [Layer.top] at ht
    simp only [Layer.left] at hl
    simp only [Layer.bottom] at hb
    simp only [Layer.rightEdge] at hr
    subst ht hl hb hr
    simp only [layerViolation, Layer.top, Layer.left, Layer.bottom,
      Layer.rightEdge]
    split <;> simp_all
  · intro container layer hmiss
    obtain ⟨nm, t0, l0, b0, r0, hd, o0, cs0⟩ := layer
    simp only [Layer.top, Layer.left, Layer.bottom, Layer.rightEdge] at hmiss
    cases t0 <;> cases l0 <;> cases b0 <;> cases r0 <;>
      simp_all [layerViolation, Layer.top, Layer.left, Layer.bottom,
        Layer.rightEdge]

/-- Closed witness for `mapLayersToContainers_or_semantics`: the edge layer
is not flagged, the one-pixel overflow is. -/
theorem mapLayersToContainers_or_semantics_witness :
    ((layerViolation c7container c7edgeLayer).isSome ↔
      ((90:ℚ) < 0 ∨ (0:ℚ) < 0 ∨ (100:ℚ) > 0 + 100 ∨ (10:ℚ) > 0 + 50))
    ∧ ¬ (layerViolation c7container c7edgeLayer).isSome
    ∧ ((layerViolation c7container c7overLayer).isSome ↔
      ((90:ℚ) < 0 ∨ (0:ℚ) < 0 ∨ (101:ℚ) > 0 + 100 ∨ (10:ℚ) > 0 + 50))
    ∧ (layerViolation c7container c7overLayer).isSome := by
  have hEdge := mapLayersToContainers_or_semantics.2.1 c7container c7edgeLayer
    0 90 10 100 rfl rfl rfl rfl
  have hOver := mapLayersToContainers_or_semantics.2.1 c7container c7overLayer
    0 90 10 101 rfl rfl rfl rfl
  have hEdge' : (layerViolation c7container c7edgeLayer).isSome = true ↔
      ((90:ℚ) < 0 ∨ (0:ℚ) < 0 ∨ (100:ℚ) > 0 + 100 ∨ (10:ℚ) > 0 + 50) := by
    simpa [c7container] using hEdge
  have hOver' : (layerViolation c7container c7overLayer).isSome = true ↔
      ((90:ℚ) < 0 ∨ (0:ℚ) < 0 ∨ (101:ℚ) > 0 + 100 ∨ (10:ℚ) > 0 + 50) := by
    simpa [c7container] using hOver
  refine ⟨hEdge', ?_, hOver', ?_⟩
  · rw [hEdge']
    norm_num
  · rw [hOver']
    norm_num

/-- C4, counterexample: `extractTemplateMetadata` removes exactly one
leading literal `"!!"` (and trims nothing), so `"!SYMBOLS"` keeps its
marker and `"!!! SYMBOLS"` becomes `"! SYMBOLS"` — not the claimed
`"SYMBOLS"` that stripping a full marker run plus whitespace (the spec's
rule) would give.  `originalName` does preserve the raw names. -/
theorem extractTemplateMetadata_marker_counterexample :
    ((extractTemplateMetadata c4psd).containers.map ContainerDefinition.name)
      = ["!SYMBOLS", "SYMBOLS", "! SYMBOLS"]
    ∧ ((extractTemplateMetadata c4psd).containers.map ContainerDefinition.originalName)
      = ["!SYMBOLS", "!!SYMBOLS", "!!! SYMBOLS"]
    ∧ specMarkerStrip "!SYMBOLS" = "SYMBOLS"
    ∧ specMarkerStrip "!!! SYMBOLS" = "SYMBOLS"
    ∧ ("!SYMBOLS" : String) ≠ "SYMBOLS"
    ∧ ("! SYMBOLS" : String) ≠ "SYMBOLS" := by
  refine ⟨rfl, rfl, by decide, by decide, by decide, by decide⟩

/-- C4, amended: every container produced by `extractTemplateMetadata` has
`name` equal to its untouched raw `originalName` with exactly one leading
literal `"!!"` stripped when present (no whitespace trimming; a single `'!'`
or any further markers remain). -/
theorem extractTemplateMetadata_name_marker_pair (psd : Psd) :
    List.Forall (fun c => c.name = stripMarkerPair c.originalName)
      (extractTemplateMetadata psd).containers := by
  rw [List.forall_iff_forall_mem]
  intro c hc
  rw [extractTemplateMetadata] at hc
  rcases psd with ⟨w, h, _ | kids⟩
  · simp at hc
  · dsimp only at hc
    cases hfind : (kids.find? (fun child => child.name == some "!!TEMPLATE")) with
    | none => rw [hfind] at hc; simp at hc
    | some tg =>
      rw [hfind] at hc
      dsimp only at hc
      cases hkids : tg.children with
      | none => rw [hkids] at hc; simp at hc
      | some tchildren =>
        rw [hkids] at hc
        simp only [List.mem_map] at hc
        obtain ⟨p, _, rfl⟩ := hc
        rfl

/-- Basic facts about decimal digit characters. -/
theorem digitChar_props (d : Nat) (h : d < 10) :
    (digitChar d).isDigit = true ∧ (digitChar d).isWhitespace = false ∧
      digitChar d ≠ '.' ∧ (digitChar d).toNat = 48 + d := by
  interval_cases d <;> exact ⟨by decide, by decide, by decide, by decide⟩

/-- Every character of a decimal rendering is a digit (hence not whitespace
and not a dot). -/
theorem renderNatCore_props (n : Nat) :
    ∀ c ∈ renderNatCore n,
      c.isDigit = true ∧ c.isWhitespace = false ∧ c ≠ '.' := by
  rw [renderNatCore]
  split
  next h =>
    intro c hc
    simp only [List.mem_singleton] at hc
    subst hc
    obtain ⟨h1, h2, h3, _⟩ := digitChar_props n h
    exact ⟨h1, h2, h3⟩
  next h =>
    intro c hc
    rcases List.mem_append.mp hc with h1 | h2
    · exact renderNatCore_props (n / 10) c h1
    · simp only [List.mem_singleton] at h2
      subst h2
      obtain ⟨h1, h2, h3, _⟩ := digitChar_props (n % 10) (Nat.mod_lt _ (by omega))
      exact ⟨h1, h2, h3⟩
termination_by n
decreasing_by exact Nat.div_lt_self (by omega) (by omega)

/-- A decimal rendering is never empty. -/
theorem renderNatCore_ne_nil (n : Nat) : renderNatCore n ≠ [] := by
  rw [renderNatCore]
  split
  · simp
  · simp

/-- Parsing a decimal rendering recovers the number. -/
theorem parseDigits_renderNatCore (n : Nat) :
    parseDigits (renderNatCore n) = some n := by
  rw [renderNatCore]
  split
  next h =>
    obtain ⟨h1, _, _, h4⟩ := digitChar_props n h
    simp [parseDigits, parseDigitsStep, h1, h4]
  next h =>
    rw [parseDigits, List.foldl_append]
    have ih := parseDigits_renderNatCore (n / 10)
    rw [parseDigits] at ih
    rw [ih]
    obtain ⟨h1, _, _, h4⟩ := digitChar_props (n % 10) (Nat.mod_lt _ (by omega))
    simp only [List.foldl_cons, List.foldl_nil, parseDigitsStep, h1, h4,
      if_true]
    congr 1
    omega
termination_by n
decreasing_by exact Nat.div_lt_self (by omega) (by omega)

/-- `dropWhile` is the identity on lists with no satisfying element. -/
theorem dropWhile_of_none {p : Char → Bool} :
    ∀ cs : List Char, (∀ c ∈ cs, p c = false) → cs.dropWhile p = cs
  | [], _ => rfl
  | c :: cs, h => by
    rw [List.dropWhile_cons_of_neg]
    simp [h c (by simp)]

/-- Trimming is the identity on whitespace-free character lists. -/
theorem trimChars_of_no_ws (cs : List Char)
    (h : ∀ c ∈ cs, c.isWhitespace = false) : trimChars cs = cs := by
  rw [trimChars, dropWhile_of_none cs h,
    dropWhile_of_none cs.reverse (fun c hc => h c (List.mem_reverse.mp hc)),
    List.reverse_reverse]

/-- A decimal digit character is none of the grammar's special
characters. -/
theorem digit_not_special (c : Char) (h : c.isDigit = true) :
    c ≠ '+' ∧ c ≠ '-' ∧ c ≠ 'e' ∧ c ≠ 'E' := by
  refine ⟨?_, ?_, ?_, ?_⟩ <;> (rintro rfl; exact absurd h (by decide))

/-- A segment with no exponent marker splits into itself. -/
theorem splitExpMark_of_no_marks : ∀ cs : List Char,
    (∀ c ∈ cs, c ≠ 'e' ∧ c ≠ 'E') → splitExpMark cs = (cs, none)
  | [], _ => rfl
  | c :: cs, h => by
    have hc := h c (by simp)
    have ih := splitExpMark_of_no_marks cs (fun x hx => h x (by simp [hx]))
    rw [splitExpMark, if_neg (not_or.mpr ⟨hc.1, hc.2⟩), ih]

/-- On a pure digit run, the decimal-segment parse is the digit value. -/
theorem decSegment_digits (cs : List Char) (hne : cs ≠ [])
    (hd : ∀ c ∈ cs, c.isDigit = true) {n : Nat}
    (hp : parseDigits cs = some n) : decSegment cs = some n := by
  have hsplit : splitExpMark cs = (cs, none) :=
    splitExpMark_of_no_marks cs fun c hc =>
      ⟨(digit_not_special c (hd c hc)).2.2.1,
        (digit_not_special c (hd c hc)).2.2.2⟩
  rw [decSegment]
  simp only [hsplit]
  rcases cs with _ | ⟨c, rest⟩
  · exact absurd rfl hne
  · have hns := digit_not_special c (hd c (by simp))
    rw [parseSignedRun, if_neg hns.1, if_neg hns.2.1, parseDecRun,
      if_neg (by simp), hp]
    by_cases hn : n = 0
    · simp [decIndexVal, hn]
    · simp [decIndexVal, hn]

/-- On a pure digit run, the full segment parse is the digit value (the
radix-literal branches need a non-digit second character). -/
theorem jsSegmentIndex_digits (cs : List Char) (hne : cs ≠ [])
    (hd : ∀ c ∈ cs, c.isDigit = true) {n : Nat}
    (hp : parseDigits cs = some n) : jsSegmentIndex cs = some n := by
  rcases cs with _ | ⟨c0, rest0⟩
  · exact absurd rfl hne
  · rcases rest0 with _ | ⟨c1, rest1⟩
    · exact decSegment_digits [c0] (by simp) hd hp
    · have hc1 := hd c1 (by simp)
      have hx : ¬(c0 = '0' ∧ (c1 = 'x' ∨ c1 = 'X')) := by
        rintro ⟨-, rfl | rfl⟩ <;> exact absurd hc1 (by decide)
      have ho : ¬(c0 = '0' ∧ (c1 = 'o' ∨ c1 = 'O')) := by
        rintro ⟨-, rfl | rfl⟩ <;> exact absurd hc1 (by decide)
      have hb : ¬(c0 = '0' ∧ (c1 = 'b' ∨ c1 = 'B')) := by
        rintro ⟨-, rfl | rfl⟩ <;> exact absurd hc1 (by decide)
      rw [jsSegmentIndex, if_neg hx, if_neg ho, if_neg hb]
      exact decSegment_digits _ (by simp) hd hp

/-- `Number` on a rendered index recovers the index. -/
theorem jsArrayIndex_renderNatCore (n : Nat) :
    jsArrayIndex (renderNatCore n) = some n := by
  have htrim : trimChars (renderNatCore n) = renderNatCore n :=
    trimChars_of_no_ws _ (fun c hc => (renderNatCore_props n c hc).2.1)
  rw [jsArrayIndex]
  simp only [htrim]
  rw [if_neg (by simpa [List.isEmpty_iff] using renderNatCore_ne_nil n)]
  exact jsSegmentIndex_digits _ (renderNatCore_ne_nil n)
    (fun c hc => (renderNatCore_props n c hc).1) (parseDigits_renderNatCore n)

example : jsArrayIndex ("+0".data) = some 0 := by decide
example : jsArrayIndex ("-0".data) = some 0 := by decide
example : jsArrayIndex ("+12".data) = some 12 := by decide
example : jsArrayIndex ("-1".data) = none := by decide
example : jsArrayIndex ("0x10".data) = some 16 := by decide
example : jsArrayIndex ("0X1f".data) = some 31 := by decide
example : jsArrayIndex ("0o17".data) = some 15 := by decide
example : jsArrayIndex ("0b101".data) = some 5 := by decide
example : jsArrayIndex ("0x".data) = none := by decide
example : jsArrayIndex ("1e2".data) = some 100 := by decide
example : jsArrayIndex ("1E+2".data) = some 100 := by decide
example : jsArrayIndex ("100e-2".data) = some 1 := by decide
example : jsArrayIndex ("5e-1".data) = none := by decide
example : jsArrayIndex ("-100e-2".data) = none := by decide
example : jsArrayIndex ("Infinity".data) = none := by decide
example : jsArrayIndex ("-Infinity".data) = none := by decide
example : jsArrayIndex ("+0x10".data) = none := by decide
example : jsArrayIndex (" 12 ".data) = some 12 := by decide
example : jsArrayIndex ("".data) = some 0 := by decide
example : jsArrayIndex ("abc".data) = none := by decide
example : jsArrayIndex ("12a".data) = none := by decide
example : findLayerByPath c9psd "layer-+0" = some c9parent := rfl
example : findLayerByPath c9psd "layer-0x0.0b0" = some c9grand := rfl
example : findLayerByPath c9psd "layer-0.0e0" = some c9grand := rfl
example : findLayerByPath c9psd "layer-1e0" = none := rfl

/-- `splitOnDot` always produces at least one segment. -/
theorem splitOnDot_ne_nil : ∀ cs : List Char, splitOnDot cs ≠ []
  | [] => by simp [splitOnDot]
  | c :: cs => by
    rw [splitOnDot]
    split
    · simp
    · split
      · simp
      · simp

/-- A dot-free character list is a single segment. -/
theorem splitOnDot_no_dot : ∀ cs : List Char,
    (∀ c ∈ cs, c ≠ '.') → splitOnDot cs = [cs]
  | [], _ => rfl
  | c :: cs, h => by
    rw [splitOnDot]
    rw [if_neg (h c (by simp))]
    rw [splitOnDot_no_dot cs (fun x hx => h x (by simp [hx]))]

/-- Splitting at the first dot after a dot-free run. -/
theorem splitOnDot_append_dot : ∀ (xs ys : List Char),
    (∀ c ∈ xs, c ≠ '.') →
    splitOnDot (xs ++ '.' :: ys) = xs :: splitOnDot ys
  | [], ys, _ => by
    rw [List.nil_append, splitOnDot, if_pos rfl]
  | x :: xs, ys, h => by
    rw [List.cons_append, splitOnDot]
    rw [if_neg (h x (by simp)), splitOnDot_append_dot xs ys
      (fun c hc => h c (by simp [hc]))]

/-- The unfolding of `renderPathCore` on a two-or-more element path. -/
theorem renderPathCore_cons_cons (i j : Nat) (is : List Nat) :
    renderPathCore (i :: j :: is)
      = renderNatCore i ++ '.' :: renderPathCore (j :: is) := rfl

/-- Splitting a rendered non-empty index path recovers the rendered
segments. -/
theorem splitOnDot_renderPathCore : ∀ (i : Nat) (is : List Nat),
    splitOnDot (renderPathCore (i :: is)) = (i :: is).map renderNatCore
  | i, [] => by
    rw [renderPathCore, List.map_singleton,
      splitOnDot_no_dot _ (fun c hc => (renderNatCore_props i c hc).2.2)]
  | i, j :: is => by
    rw [renderPathCore_cons_cons]
    rw [splitOnDot_append_dot _ _ (fun c hc => (renderNatCore_props i c hc).2.2)]
    rw [splitOnDot_renderPathCore j is]
    simp

/-- Dropping the first occurrence of a non-empty pattern from a string that
starts with it leaves the remainder. -/
theorem dropFirstOcc_of_append (pat rest : List Char) (hp : pat ≠ []) :
    dropFirstOcc pat (pat ++ rest) = rest := by
  rcases pat with _ | ⟨p, ps⟩
  · exact absurd rfl hp
  · rw [List.cons_append, dropFirstOcc]
    rw [if_pos]
    · rw [← List.cons_append, List.drop_left]
    · rw [← List.cons_append]
      exact List.isPrefixOf_iff_prefix.mpr (List.prefix_append _ _)

/-- A rendered non-empty path is non-empty. -/
theorem renderPathCore_ne_nil : ∀ (i : Nat) (is : List Nat),
    renderPathCore (i :: is) ≠ []
  | i, [] => by rw [renderPathCore]; exact renderNatCore_ne_nil i
  | i, j :: is => by
    rw [renderPathCore_cons_cons]
    intro h
    rcases List.append_eq_nil.mp h with ⟨h1, _⟩
    exact renderNatCore_ne_nil i h1

/-- Emitting with the sibling count started one higher shifts every pair's
head index by one. -/
theorem emitIdx_shift : ∀ (layers : List Layer) (i : Nat),
    emitIdx layers (i + 1) = (emitIdx layers i).map headShift
  | [], i => by simp [emitIdx]
  | .mk nm t l b r hid op kids :: rest, i => by
    rw [emitIdx, emitIdx]
    by_cases hnm : (nm == some "!!TEMPLATE") = true
    · rw [if_pos hnm, if_pos hnm]
      simp only [List.nil_append]
      exact emitIdx_shift rest (i + 1)
    · rw [if_neg hnm, if_neg hnm]
      rw [List.map_append, List.map_cons]
      rw [emitIdx_shift rest (i + 1)]
      congr 2
      rw [List.map_map]
      apply List.map_congr_left
      intro q _
      cases q
      rfl

/-- Every emitted index path is non-empty. -/
theorem emitIdx_path_ne_nil : ∀ (layers : List Layer) (i : Nat)
    (p : List Nat × Layer), p ∈ emitIdx layers i → p.1 ≠ []
  | [], i, p, h => by simp [emitIdx] at h
  | .mk nm t l b r hid op kids :: rest, i, p, h => by
    rw [emitIdx] at h
    rcases List.mem_append.mp h with h1 | h2
    · by_cases hnm : (nm == some "!!TEMPLATE") = true
      · rw [if_pos hnm] at h1
        simp at h1
      · rw [if_neg hnm] at h1
        rcases List.mem_cons.mp h1 with rfl | hmem
        · simp
        · obtain ⟨q, _, rfl⟩ := List.mem_map.mp hmem
          simp
    · exact emitIdx_path_ne_nil rest (i + 1) p h2

/-- One step of the index walk. -/
theorem walkPath_cons (cs : List Layer) (j : Nat) (is : List (Option Nat))
    (found : Option Layer) :
    walkPath (some cs) (some j :: is) found
      = match cs.get? j with
        | some l => walkPath l.children is (some l)
        | none => none := rfl

/-- Walking an emitted index path from the root recovers the original node
that produced it, whatever the accumulator holds. -/
theorem walkPath_emitIdx : ∀ (layers : List Layer) (p : List Nat × Layer),
    p ∈ emitIdx layers 0 → ∀ found,
      walkPath (some layers) (p.1.map some) found = some p.2
  | [], p, h => by simp [emitIdx] at h
  | .mk nm t l b r hid op kids :: rest, p, h => by
    rw [emitIdx] at h
    rcases List.mem_append.mp h with h1 | h2
    · by_cases hnm : (nm == some "!!TEMPLATE") = true
      · rw [if_pos hnm] at h1
        simp at h1
      · rw [if_neg hnm] at h1
        rcases List.mem_cons.mp h1 with rfl | hmem
        · intro found
          rfl
        · obtain ⟨q, hq, rfl⟩ := List.mem_map.mp hmem
          intro found
          simp only [List.map_cons]
          rw [walkPath_cons]
          cases kids with
          | none => simp [emitIdxOpt] at hq
          | some ks =>
            have hq' : q ∈ emitIdx ks 0 := by rwa [emitIdxOpt] at hq
            have := walkPath_emitIdx ks q hq'
              (some (Layer.mk nm t l b r hid op (some ks)))
            simpa [List.get?, Layer.children] using this
    · rw [show (0 : Nat) + 1 = 0 + 1 from rfl, emitIdx_shift] at h2
      obtain ⟨q, hq, rfl⟩ := List.mem_map.mp h2
      have hqne := emitIdx_path_ne_nil rest 0 q hq
      obtain ⟨qp, ql⟩ := q
      rcases qp with _ | ⟨j, js⟩
      · exact absurd rfl hqne
      · intro found
        have ih := walkPath_emitIdx rest (j :: js, ql) hq found
        simp only [List.map_cons] at ih
        rw [walkPath_cons] at ih
        simp only [headShift, List.map_cons]
        rw [walkPath_cons]
        simpa [List.get?] using ih

/-- `cleanIds` distributes over list append. -/
theorem cleanIds_append : ∀ xs ys : List SLayer,
    cleanIds (xs ++ ys) = cleanIds xs ++ cleanIds ys
  | [], ys => by simp [cleanIds]
  | .mk i n k v o c cs :: xs, ys => by
    rw [List.cons_append, cleanIds, cleanIds, cleanIds_append xs ys]
    simp [List.append_assoc]

/-- Appending one index to a rendered non-empty path appends a dot and the
rendered index. -/
theorem renderPathCore_append_one : ∀ (p : Nat) (ps : List Nat) (i : Nat),
    renderPathCore ((p :: ps) ++ [i])
      = renderPathCore (p :: ps) ++ '.' :: renderNatCore i
  | p, [], i => by
    rw [List.cons_append, List.nil_append, renderPathCore_cons_cons,
      renderPathCore, renderPathCore]
  | p, q :: ps, i => by
    have h1 : (p :: q :: ps) ++ [i] = p :: q :: (ps ++ [i]) := rfl
    rw [h1, renderPathCore_cons_cons p q (ps ++ [i]),
      show q :: (ps ++ [i]) = (q :: ps) ++ [i] from rfl,
      renderPathCore_append_one q ps i,
      renderPathCore_cons_cons p q ps]
    simp

/-- The conversion's `currentPath` construction renders the snoc of the
index path. -/
theorem renderPath_snoc (pre : List Nat) (i : Nat) :
    (if renderPath pre = "" then renderNat i
      else renderPath pre ++ "." ++ renderNat i) = renderPath (pre ++ [i]) := by
  rcases pre with _ | ⟨p, ps⟩
  · rw [if_pos (show renderPath ([] : List Nat) = "" from rfl)]
    rfl
  · rw [if_neg ?hne]
    case hne =>
      intro hcontra
      have : renderPathCore (p :: ps) = [] := by
        have := congrArg String.data hcontra
        simpa [renderPath] using this
      exact renderPathCore_ne_nil p ps this
    apply String.ext
    simp only [renderPath, renderNat, String.data_append]
    rw [renderPathCore_append_one]
    simp

/-- The ids of the converted forest are exactly the emitted index paths,
rendered under the accumulated prefix. -/
theorem cleanIds_emitIdx : ∀ (layers : List Layer) (pre : List Nat) (i : Nat),
    cleanIds (cleanLayers layers (renderPath pre) i)
      = (emitIdx layers i).map (fun q => "layer-" ++ renderPath (pre ++ q.1))
  | [], pre, i => by simp [cleanLayers, emitIdx, cleanIds]
  | .mk nm t l b r hid op kids :: rest, pre, i => by
    rw [cleanLayers, emitIdx]
    by_cases hnm : (nm == some "!!TEMPLATE") = true
    · rw [if_pos hnm, if_pos hnm]
      simp only [List.nil_append]
      exact cleanIds_emitIdx rest pre (i + 1)
    · rw [if_neg hnm, if_neg hnm]
      rw [cleanIds_append, List.map_append, List.map_cons]
      congr 1
      · rw [cleanIds]
        rw [renderPath_snoc pre i]
        congr 1
        cases kids with
        | none => simp [cleanChildren, cleanIdsOpt, emitIdxOpt, cleanIds]
        | some ks =>
          rw [cleanChildren, cleanIdsOpt, emitIdxOpt,
            cleanIds_emitIdx ks (pre ++ [i]) 0]
          simp only [cleanIds, List.map_map, List.append_nil]
          apply List.map_congr_left
          intro q _
          simp
      · exact cleanIds_emitIdx rest pre (i + 1)

/-- C6: for every document tree, the serializable-tree conversion (which
skips the `'!!TEMPLATE'` group but keeps each remaining child's original
sibling index in its path) emits exactly the ids `"layer-" ++ path` of the
emitted index paths, and looking any emitted id up with `findLayerByPath`
against the same tree returns exactly the original node that produced it. -/
theorem cleanTree_findLayerByPath_roundtrip (w h : Option ℚ) (layers : List Layer) :
    cleanIds (getCleanLayerTree layers "")
      = (emitIdx layers 0).map (fun p => "layer-" ++ renderPath p.1)
    ∧ List.Forall
        (fun p =>
          findLayerByPath ⟨w, h, some layers⟩ ("layer-" ++ renderPath p.1)
            = some p.2)
        (emitIdx layers 0) := by
  constructor
  · have hids := cleanIds_emitIdx layers [] 0
    rw [show renderPath ([] : List Nat) = "" from rfl] at hids
    rw [getCleanLayerTree, hids]
    simp
  · rw [List.forall_iff_forall_mem]
    intro p hp
    have hne := emitIdx_path_ne_nil layers 0 p hp
    obtain ⟨pp, pl⟩ := p
    rcases pp with _ | ⟨i, is⟩
    · exact absurd rfl hne
    · rw [findLayerByPath]
      have hdata : ("layer-" ++ renderPath (i :: is)).data
          = "layer-".data ++ renderPathCore (i :: is) := by
        rw [String.data_append]
        rfl
      rw [hdata, dropFirstOcc_of_append _ _ (by decide)]
      rw [if_neg (renderPathCore_ne_nil i is)]
      rw [splitOnDot_renderPathCore i is, List.map_map]
      have hmaps : (i :: is).map (jsArrayIndex ∘ renderNatCore)
          = (i :: is).map some := by
        apply List.map_congr_left
        intro a _
        exact jsArrayIndex_renderNatCore a
      rw [hmaps]
      exact walkPath_emitIdx layers (i :: is, pl) hp none

/-- Walking a list with a failed (`NaN`-like) index always aborts with
`none`. -/
theorem walkPath_none_of_mem : ∀ (children : Option (List Layer))
    (is : List (Option Nat)) (found : Option Layer),
    none ∈ is → walkPath children is found = none
  | _, [], _, h => absurd h (by simp)
  | children, i :: rest, found, h => by
    rcases children with _ | cs
    · rfl
    · rcases i with _ | idx
      · rfl
      · rw [walkPath_cons]
        cases hg : cs.get? idx with
        | none => simp
        | some l =>
          simp only
          apply walkPath_none_of_mem
          rcases List.mem_cons.mp h with h0 | h1
          · exact absurd h0 (by simp)
          · exact h1

/-- On an all-parsed non-empty index list the walk computes the clean
index-path lookup, whatever the accumulator holds. -/
theorem walkPath_nodeAtPath : ∀ (is : List Nat)
    (children : Option (List Layer)) (found : Option Layer),
    is ≠ [] → walkPath children (is.map some) found = nodeAtPath children is
  | [], _, _, h => absurd rfl h
  | i :: rest, children, found, _ => by
    rcases children with _ | cs
    · rfl
    · rw [List.map_cons, walkPath_cons, nodeAtPath]
      cases hg : cs.get? i with
      | none => simp
      | some l =>
        simp only [Option.some_bind]
        rcases rest with _ | ⟨r, rs⟩
        · simp [walkPath]
        · rw [if_neg (by simp)]
          exact walkPath_nodeAtPath (r :: rs) l.children (some l) (by simp)

/-- C9 (amended): `findLayerByPath` is total and fails soft: it returns
`none` when the remainder after removing the `'layer-'` pattern is empty,
or when any dot-separated segment fails to denote a valid array element
index (JS `Number` yields `NaN`, `±Infinity`, a negative or a fractional
value), or when the index walk runs out of range or hits a node with no
children array; when every segment denotes an index (note JS
`Number('') === 0`, so empty segments denote index 0, and signed, exponent
and radix forms such as `'+0'`, `'1e2'` or `'0x10'` denote their numeric
value), the result is exactly the node at that index path. -/
theorem findLayerByPath_sound (psd : Psd) (layerId : String) :
    (dropFirstOcc "layer-".data layerId.data = [] →
        findLayerByPath psd layerId = none)
    ∧ (none ∈ (splitOnDot (dropFirstOcc "layer-".data layerId.data)).map jsArrayIndex →
        findLayerByPath psd layerId = none)
    ∧ (∀ is : List Nat,
        (splitOnDot (dropFirstOcc "layer-".data layerId.data)).map jsArrayIndex
          = is.map some →
        dropFirstOcc "layer-".data layerId.data ≠ [] →
        findLayerByPath psd layerId = nodeAtPath psd.children is) := by
  refine ⟨?_, ?_, ?_⟩
  · intro hempty
    rw [findLayerByPath, if_pos hempty]
  · intro hnan
    rw [findLayerByPath]
    by_cases he : dropFirstOcc "layer-".data layerId.data = []
    · rw [if_pos he]
    · rw [if_neg he]
      exact walkPath_none_of_mem _ _ _ hnan
  · intro is hparse hne
    rw [findLayerByPath, if_neg hne, hparse]
    apply walkPath_nodeAtPath
    intro hnil
    subst hnil
    rw [List.map_nil, List.map_eq_nil] at hparse
    exact splitOnDot_ne_nil _ hparse

/-- C9, counterexample: the malformed id `"layer-."` does not return `null`:
its two empty segments each parse as index 0 (JS `Number('') === 0`), so the
lookup walks to index path `[0, 0]` and returns the grandchild node. -/
theorem findLayerByPath_malformed_counterexample :
    splitOnDot (dropFirstOcc "layer-".data ("layer-." : String).data) = [[], []]
    ∧ jsArrayIndex [] = some 0
    ∧ findLayerByPath c9psd "layer-." = some c9grand
    ∧ some c9grand ≠ (none : Option Layer) := by
  exact ⟨rfl, rfl, rfl, by simp⟩

/-- Closed witness for `findLayerByPath_sound`: the id `"layer-0.0"` parses
to the index path `[0, 0]`, and the lookup agrees with the clean index-path
lookup there. -/
theorem findLayerByPath_sound_witness :
    findLayerByPath c9psd "layer-0.0" = nodeAtPath c9psd.children [0, 0] :=
  (findLayerByPath_sound c9psd "layer-0.0").2.2 [0, 0] rfl (by decide)
